import Mathlib

/-!
Verification of the trading-bot backtest core: the signal engine
(`app/strategies/cdc_actionzone.py`), the trade simulator
(`app/core/strategy.py`), and the performance analytics
(`app/core/backtest_report.py`).

The Python code is embedded shallowly: prices and cash are exact rationals
(the source uses IEEE doubles; all claims here concern the exact-arithmetic
semantics of the algorithms), bar timestamps are natural-number indices into
the close-price list, and fallible Python code (`ZeroDivisionError`) is
embedded as `Except`.
-/

namespace TradingBot

/-- Order side, from `app/core/models.py` (`OrderSide`). -/
inductive OrderSide where
  | buy
  | sell
deriving DecidableEq, Repr

/-- Trading signal, from `app/core/models.py` (`Signal`).  The timestamp is
the index of the bar the signal fires at; symbol, signal_type and metadata
are diagnostic strings not used by any computation verified here. -/
structure Signal where
  t : Nat
  side : OrderSide
  price : ℚ
  quantity : ℚ
deriving DecidableEq, Repr

/-! ## Trade simulator (`BaseStrategy._simulate_trading`, strategy.py 96-143)

The simulator state is the pair (current_cash, current_position). -/

/-- Application of one signal to the simulator state at the current bar's
close price: the body of the inner `for signal in signals` loop of
`_simulate_trading` (strategy.py 110-138).  A BUY while `current_position <= 0`
sizes the purchase at `current_cash * max_position_size / current_price` and
executes only if the cost does not exceed cash; a SELL while
`current_position > 0` liquidates the whole position at the close. -/
def applySignal (maxPositionSize price : ℚ) (st : ℚ × ℚ) (s : Signal) : ℚ × ℚ :=
  if s.side = OrderSide.buy ∧ st.2 ≤ 0 then
    let sharesToBuy := st.1 * maxPositionSize / price
    let cost := sharesToBuy * price
    if cost ≤ st.1 then (st.1 - cost, st.2 + sharesToBuy) else st
  else if s.side = OrderSide.sell ∧ 0 < st.2 then
    (st.1 + st.2 * price, 0)
  else
    st

/-- Processing of one bar: every signal whose timestamp equals the current
bar's index is applied, in signal-list order (strategy.py 110-111). -/
def stepBar (maxPositionSize : ℚ) (signals : List Signal) (i : Nat) (price : ℚ)
    (st : ℚ × ℚ) : ℚ × ℚ :=
  (signals.filter fun s => s.t == i).foldl (applySignal maxPositionSize price) st

/-- The bar loop of `_simulate_trading` (strategy.py 105-141), started at bar
index `i` in state `st`: for each bar it applies the bar's signals and records
the post-bar state together with the recorded equity
`current_cash + current_position * current_price` (line 141). -/
def simulateFrom (maxPositionSize : ℚ) (signals : List Signal) :
    Nat → ℚ × ℚ → List ℚ → List ((ℚ × ℚ) × ℚ)
  | _, _, [] => []
  | i, st, price :: rest =>
    let st' := stepBar maxPositionSize signals i price st
    (st', st'.1 + st'.2 * price) :: simulateFrom maxPositionSize signals (i + 1) st' rest

/-- The loop of `BaseStrategy._simulate_trading`, run from the initial state
(cash = `config.cash`, position = 0) over the whole close series.  On a
non-empty series the pre-loop assignment `equity.iloc[0] = self.config.cash`
(line 99) is dead — the loop overwrites index 0 at its first iteration (line
141) — so it is omitted here; on an empty series that assignment raises
IndexError, an error path modelled by `simulateTradingFull` below, so this
loop-only model describes the function on non-empty input. -/
def simulateTrading (cash maxPositionSize : ℚ) (signals : List Signal)
    (closes : List ℚ) : List ((ℚ × ℚ) × ℚ) :=
  simulateFrom maxPositionSize signals 0 (cash, 0) closes

/-- The equity series returned by `_simulate_trading`. -/
def equityCurve (cash maxPositionSize : ℚ) (signals : List Signal)
    (closes : List ℚ) : List ℚ :=
  (simulateTrading cash maxPositionSize signals closes).map (·.2)

/-- The per-bar trace of `current_cash` inside `_simulate_trading`. -/
def cashSeries (cash maxPositionSize : ℚ) (signals : List Signal)
    (closes : List ℚ) : List ℚ :=
  (simulateTrading cash maxPositionSize signals closes).map (·.1.1)

/-- `BaseStrategy._simulate_trading` in full, including its one failure
path: on an empty bar series the pre-loop assignment
`equity.iloc[0] = self.config.cash` (strategy.py 99) raises IndexError
(`.iloc` cannot enlarge an empty Series), whatever the configuration; on a
non-empty series it is overwritten by the loop and the run returns the
equity curve. -/
def simulateTradingFull (cash maxPositionSize : ℚ) (signals : List Signal)
    (closes : List ℚ) : Except String (List ℚ) :=
  if closes.isEmpty then Except.error "IndexError"
  else Except.ok (equityCurve cash maxPositionSize signals closes)

/-! ### Simulator lemmas -/

/-- Applying one signal never changes the mark-to-market equity
`cash + position * price` at the executing bar's close: an executed BUY's cost
equals the value of the shares acquired, an executed SELL's proceeds equal the
value of the position liquidated, and skipped signals change nothing. -/
theorem applySignal_equity (mps price : ℚ) (st : ℚ × ℚ) (s : Signal) :
    (applySignal mps price st s).1 + (applySignal mps price st s).2 * price =
      st.1 + st.2 * price := by
  unfold applySignal
  split
  · dsimp only
    split
    · dsimp only
      ring
    · rfl
  · split
    · dsimp only
      ring
    · rfl

theorem foldl_applySignal_equity (mps price : ℚ) (l : List Signal) (st : ℚ × ℚ) :
    (l.foldl (applySignal mps price) st).1 +
        (l.foldl (applySignal mps price) st).2 * price = st.1 + st.2 * price := by
  induction l generalizing st with
  | nil => rfl
  | cons s rest ih =>
    rw [List.foldl_cons]
    rw [ih (applySignal mps price st s)]
    exact applySignal_equity mps price st s

theorem stepBar_equity (mps : ℚ) (signals : List Signal) (i : Nat) (price : ℚ)
    (st : ℚ × ℚ) :
    (stepBar mps signals i price st).1 + (stepBar mps signals i price st).2 * price =
      st.1 + st.2 * price :=
  foldl_applySignal_equity mps price _ st

/-- Applying one signal keeps the cash component non-negative, provided the
bar's close price is non-negative: an executed BUY leaves `cash - cost` with
`cost ≤ cash`; an executed SELL adds `position * price` with `position > 0`. -/
theorem applySignal_cash_nonneg (mps price : ℚ) (st : ℚ × ℚ) (s : Signal)
    (hp : 0 ≤ price) (hc : 0 ≤ st.1) : 0 ≤ (applySignal mps price st s).1 := by
  unfold applySignal
  split
  · dsimp only
    split
    case isTrue h => simpa using h
    case isFalse => exact hc
  · split
    case isTrue h =>
      have := mul_nonneg (le_of_lt h.2) hp
      dsimp only
      linarith
    case isFalse => exact hc

theorem foldl_applySignal_cash_nonneg (mps price : ℚ) (l : List Signal)
    (st : ℚ × ℚ) (hp : 0 ≤ price) (hc : 0 ≤ st.1) :
    0 ≤ (l.foldl (applySignal mps price) st).1 := by
  induction l generalizing st with
  | nil => exact hc
  | cons s rest ih =>
    rw [List.foldl_cons]
    exact ih _ (applySignal_cash_nonneg mps price st s hp hc)

theorem stepBar_cash_nonneg (mps : ℚ) (signals : List Signal) (i : Nat)
    (price : ℚ) (st : ℚ × ℚ) (hp : 0 ≤ price) (hc : 0 ≤ st.1) :
    0 ≤ (stepBar mps signals i price st).1 :=
  foldl_applySignal_cash_nonneg mps price _ st hp hc

theorem simulateFrom_cash_nonneg (mps : ℚ) (signals : List Signal)
    (closes : List ℚ) : ∀ (i : Nat) (st : ℚ × ℚ), 0 ≤ st.1 →
    (∀ p ∈ closes, 0 ≤ p) →
    ∀ c ∈ (simulateFrom mps signals i st closes).map (·.1.1), 0 ≤ c := by
  induction closes with
  | nil => intro i st _ _ c hc; simp [simulateFrom] at hc
  | cons p rest ih =>
    intro i st hst hprices c hc
    have hp : 0 ≤ p := hprices p (List.mem_cons_self p rest)
    have hst' : 0 ≤ (stepBar mps signals i p st).1 :=
      stepBar_cash_nonneg mps signals i p st hp hst
    simp only [simulateFrom, List.map_cons, List.mem_cons] at hc
    rcases hc with h | h
    · exact h ▸ hst'
    · exact ih (i + 1) _ hst' (fun q hq => hprices q (List.mem_cons_of_mem p hq)) c h

theorem simulateFrom_length (mps : ℚ) (signals : List Signal) :
    ∀ (closes : List ℚ) (i : Nat) (st : ℚ × ℚ),
      (simulateFrom mps signals i st closes).length = closes.length := by
  intro closes
  induction closes with
  | nil => intro i st; rfl
  | cons p rest ih =>
    intro i st
    simp [simulateFrom, ih]

/-! ## Claims about the trade simulator -/

/-- C10: executing a signal is equity-neutral at the executing bar: in exact
arithmetic, a processed BUY debits cash by exactly the value of the shares
acquired at that bar's close and a processed SELL credits cash by exactly the
value of the position liquidated, so the mark-to-market equity
`cash + position * close` is unchanged by applying any one signal, and hence
by processing all of a bar's signals. -/
theorem signal_execution_equity_neutral (mps price : ℚ) (st : ℚ × ℚ) (s : Signal)
    (signals : List Signal) (i : Nat) :
    (applySignal mps price st s).1 + (applySignal mps price st s).2 * price =
        st.1 + st.2 * price ∧
    (stepBar mps signals i price st).1 + (stepBar mps signals i price st).2 * price =
        st.1 + st.2 * price :=
  ⟨applySignal_equity mps price st s, stepBar_equity mps signals i price st⟩

/-- C5: for every run of the simulator on a non-empty bar series — any signal
list, including a signal at the first bar — the first entry of the produced
equity curve equals exactly the configured initial cash. -/
theorem equity_curve_starts_at_initial_cash (cash mps : ℚ) (signals : List Signal)
    (closes : List ℚ) (h : closes ≠ []) :
    (equityCurve cash mps signals closes).head? = some cash := by
  cases closes with
  | nil => exact absurd rfl h
  | cons p rest =>
    have h2 := stepBar_equity mps signals 0 p (cash, 0)
    simp only [equityCurve, simulateTrading, simulateFrom, List.map_cons,
      List.head?_cons, Option.some.injEq]
    simpa using h2

/-- C5 witness: on the one-bar series `[100]` with a BUY signal at the first
bar, the equity curve still starts at the initial cash 1000. -/
theorem equity_curve_starts_at_initial_cash_witness :
    (equityCurve 1000 (1/2) [⟨0, OrderSide.buy, 100, 1⟩] [100]).head? = some 1000 :=
  equity_curve_starts_at_initial_cash 1000 (1/2) [⟨0, OrderSide.buy, 100, 1⟩] [100]
    (List.cons_ne_nil 100 [])

/-- C6: with a non-negative starting cash and non-negative close prices, the
cash balance is non-negative after every bar of the simulation; moreover a BUY
whose cost exceeds the available cash is silently skipped (the simulator state
is unchanged — no partial fill). -/
theorem cash_never_negative (cash mps : ℚ) (signals : List Signal)
    (closes : List ℚ) (hcash : 0 ≤ cash) (hprices : ∀ p ∈ closes, 0 ≤ p) :
    (∀ c ∈ cashSeries cash mps signals closes, 0 ≤ c) ∧
    (∀ (price : ℚ) (st : ℚ × ℚ) (s : Signal), s.side = OrderSide.buy → st.2 ≤ 0 →
      st.1 < st.1 * mps / price * price → applySignal mps price st s = st) := by
  constructor
  · exact simulateFrom_cash_nonneg mps signals closes 0 (cash, 0) hcash hprices
  · intro price st s hside hpos hcost
    unfold applySignal
    rw [if_pos ⟨hside, hpos⟩]
    dsimp only
    rw [if_neg (not_le.mpr hcost)]

/-- C6 witness: a concrete run (initial cash 1000, two bars, a BUY and a SELL)
whose whole cash trace is non-negative. -/
theorem cash_never_negative_witness :
    (0 : ℚ) ≤ 1000 ∧
    (∀ c ∈ cashSeries 1000 (1/2)
        [⟨0, OrderSide.buy, 100, 5⟩, ⟨1, OrderSide.sell, 50, 0⟩] [100, 50], 0 ≤ c) :=
  ⟨by norm_num,
    (cash_never_negative 1000 (1/2)
      [⟨0, OrderSide.buy, 100, 5⟩, ⟨1, OrderSide.sell, 50, 0⟩] [100, 50]
      (by norm_num) (by intro p hp; fin_cases hp <;> norm_num)).1⟩

/-- C8 counterexample: with `initial_cash = -100 ≤ 0` and
`max_position_size = 2 ∉ (0,1]`, the simulator does not fail with any
configuration error: it runs to completion and returns the ordinary equity
curve `[-100]`.  No validation of either parameter exists in
`BaseStrategy.__init__` or `_simulate_trading`. -/
theorem simulate_accepts_invalid_config :
    simulateTradingFull (-100) 2 [] [100] = Except.ok [-100] := by
  norm_num [simulateTradingFull, List.isEmpty, equityCurve, simulateTrading,
    simulateFrom, stepBar]

/-- C8 amended: the simulator performs no configuration validation — for
every `initial_cash` and `max_position_size` (including non-positive cash
and out-of-range position sizes) it runs every non-empty bar series to
completion, returning an equity curve with exactly one entry per bar; its
only failure is the IndexError raised at `equity.iloc[0]` on an empty bar
series (strategy.py 99), which is independent of the configuration. -/
theorem simulate_no_config_validation (cash mps : ℚ) (signals : List Signal)
    (closes : List ℚ) :
    (closes ≠ [] →
      simulateTradingFull cash mps signals closes =
          Except.ok (equityCurve cash mps signals closes) ∧
        (equityCurve cash mps signals closes).length = closes.length) ∧
    (closes = [] →
      simulateTradingFull cash mps signals closes =
        Except.error "IndexError") := by
  constructor
  · intro h
    have hne : closes.isEmpty = false := by
      cases closes with
      | nil => exact absurd rfl h
      | cons a t => rfl
    constructor
    · simp [simulateTradingFull, hne]
    · simp [equityCurve, simulateTrading, simulateFrom_length]
  · intro h
    subst h
    rfl

/-- C8 witness: the invalid configuration (cash -100, position size 2) runs
the one-bar series to completion with a one-entry curve, and fails only on
the empty series. -/
theorem simulate_no_config_validation_witness :
    (simulateTradingFull (-100) 2 [] [100] =
        Except.ok (equityCurve (-100) 2 [] [100]) ∧
      (equityCurve (-100) 2 [] [100]).length = [(100 : ℚ)].length) ∧
    simulateTradingFull (-100) 2 [] ([] : List ℚ) =
      Except.error "IndexError" :=
  ⟨(simulate_no_config_validation (-100) 2 [] [100]).1 (by simp),
    (simulate_no_config_validation (-100) 2 [] []).2 rfl⟩

/-- C4 counterexample: a processed BUY while FLAT does not acquire shares
sized at the signal's quantity: with cash 1000, `max_position_size = 1/2` and
close 100, a BUY signal carrying `quantity = 1` acquires 5 shares
(`cash * max_position_size / price`), not 1. -/
theorem buy_ignores_signal_quantity :
    (applySignal (1/2) 100 (1000, 0) ⟨0, OrderSide.buy, 100, 1⟩).2 = 5 ∧
    (5 : ℚ) ≠ 1 := by
  constructor
  · norm_num [applySignal]
  · norm_num

/-- C4 amended: the simulator is a FLAT/LONG state machine: a processed BUY
while FLAT acquires `current_cash * max_position_size / close` shares
(ignoring the signal's quantity field) and debits their cost from cash; a
processed SELL while LONG credits cash with the current close times the full
held quantity and zeroes the position; a BUY while already LONG is ignored and
a SELL while FLAT is ignored. -/
theorem simulator_state_machine (mps price : ℚ) (st : ℚ × ℚ) (s : Signal) :
    (s.side = OrderSide.buy → st.2 = 0 → st.1 * mps / price * price ≤ st.1 →
      applySignal mps price st s =
        (st.1 - st.1 * mps / price * price, st.1 * mps / price)) ∧
    (s.side = OrderSide.sell → 0 < st.2 →
      applySignal mps price st s = (st.1 + st.2 * price, 0)) ∧
    (s.side = OrderSide.buy → 0 < st.2 → applySignal mps price st s = st) ∧
    (s.side = OrderSide.sell → st.2 ≤ 0 → applySignal mps price st s = st) := by
  refine ⟨?_, ?_, ?_, ?_⟩
  · intro hs hflat hcost
    unfold applySignal
    rw [if_pos ⟨hs, le_of_eq hflat⟩]
    dsimp only
    rw [if_pos hcost, hflat, zero_add]
  · intro hs hlong
    unfold applySignal
    rw [if_neg fun hb => by rw [hs] at hb; exact OrderSide.noConfusion hb.1,
      if_pos ⟨hs, hlong⟩]
  · intro hs hlong
    unfold applySignal
    rw [if_neg fun hb => absurd hlong (not_lt.mpr hb.2),
      if_neg fun hb => by rw [hs] at hb; exact OrderSide.noConfusion hb.1]
  · intro hs hflat
    unfold applySignal
    rw [if_neg fun hb => by rw [hs] at hb; exact OrderSide.noConfusion hb.1,
      if_neg fun hb => absurd hb.2 (not_lt.mpr hflat)]

/-- C4 witness: the four transitions at concrete states — BUY while FLAT buys
5 shares for 500, SELL while LONG liquidates 5 shares at 100 for 500, BUY
while LONG is a no-op, SELL while FLAT is a no-op. -/
theorem simulator_state_machine_witness :
    applySignal (1/2) 100 (1000, 0) ⟨0, OrderSide.buy, 100, 1⟩ = (500, 5) ∧
    applySignal (1/2) 100 (500, 5) ⟨1, OrderSide.sell, 100, 0⟩ = (1000, 0) ∧
    applySignal (1/2) 100 (500, 5) ⟨1, OrderSide.buy, 100, 0⟩ = (500, 5) ∧
    applySignal (1/2) 100 (1000, 0) ⟨0, OrderSide.sell, 100, 0⟩ = (1000, 0) := by
  refine ⟨?_, ?_, ?_, ?_⟩
  · rw [(simulator_state_machine (1/2) 100 (1000, 0) ⟨0, OrderSide.buy, 100, 1⟩).1
      rfl rfl (by norm_num)]
    norm_num [Prod.ext_iff]
  · rw [(simulator_state_machine (1/2) 100 (500, 5) ⟨1, OrderSide.sell, 100, 0⟩).2.1
      rfl (by norm_num)]
    norm_num [Prod.ext_iff]
  · exact (simulator_state_machine (1/2) 100 (500, 5) ⟨1, OrderSide.buy, 100, 0⟩).2.2.1
      rfl (by norm_num)
  · exact (simulator_state_machine (1/2) 100 (1000, 0)
      ⟨0, OrderSide.sell, 100, 0⟩).2.2.2 rfl (by norm_num)

/-! ## Indicator engine (`CDCActionZoneStrategy.get_indicators`,
cdc_actionzone.py 41-73) -/

/-- Zone classification booleans of one bar (cdc_actionzone.py 50-59). -/
structure Zones where
  green : Bool
  blue : Bool
  lightBlue : Bool
  red : Bool
  orange : Bool
  yellow : Bool
deriving DecidableEq, Repr, Inhabited

/-- The six zone booleans of one bar from the smoothed price and the two
EMAs: `bull = fast_ma > slow_ma`, `bear = fast_ma < slow_ma`, and the six
conjunctions of cdc_actionzone.py 54-59. -/
def zonesOf (price fastMA slowMA : ℚ) : Zones :=
  let bull := decide (slowMA < fastMA)
  let bear := decide (fastMA < slowMA)
  { green := bull && decide (fastMA < price)
    blue := bear && decide (fastMA < price) && decide (slowMA < price)
    lightBlue := bear && decide (fastMA < price) && decide (price < slowMA)
    red := bear && decide (price < fastMA)
    orange := bull && decide (price < fastMA) && decide (price < slowMA)
    yellow := bull && decide (price < fastMA) && decide (slowMA < price) }

/-- Recursion for the pandas exponentially weighted mean with the default
`adjust=True`: carrying `num` and `den`, each output is
`num_t / den_t` with `num_t = x_t + w * num_(t-1)` and
`den_t = 1 + w * den_(t-1)` where `w = 1 - alpha`.  This is the closed form
of `Series.ewm(span=...).mean()` used throughout `get_indicators`. -/
def ewmAux (w : ℚ) : ℚ → ℚ → List ℚ → List ℚ
  | _, _, [] => []
  | num, den, x :: rest =>
    let num' := x + w * num
    let den' := 1 + w * den
    num' / den' :: ewmAux w num' den' rest

/-- `xs.ewm(span=span).mean()` with `adjust=True` (the pandas default used in
cdc_actionzone.py 44-48): `w = 1 - alpha = (span-1)/(span+1)`.  Every output
point is defined, from the very first bar on (`min_periods` defaults to 0). -/
def ewmMean (span : ℕ) (xs : List ℚ) : List ℚ :=
  ewmAux (((span : ℚ) - 1) / ((span : ℚ) + 1)) 0 0 xs

/-- Bar-wise zone classification of three aligned series. -/
def zonesList : List ℚ → List ℚ → List ℚ → List Zones
  | p :: ps, f :: fs, s :: ss => zonesOf p f s :: zonesList ps fs ss
  | _, _, _ => []

/-- Output of `get_indicators`: the smoothed price, the two EMAs, and the
per-bar zone booleans. -/
structure Indicators where
  price : List ℚ
  fastMA : List ℚ
  slowMA : List ℚ
  zones : List Zones

/-- `CDCActionZoneStrategy.get_indicators` (cdc_actionzone.py 41-73):
smoothed price = EMA of close with span `smoothing`; fast and slow MAs are
EMAs of the smoothed price; zones classify each bar. -/
def getIndicators (fastPeriod slowPeriod smoothing : ℕ) (closes : List ℚ) :
    Indicators :=
  let price := ewmMean smoothing closes
  let fastMA := ewmMean fastPeriod price
  let slowMA := ewmMean slowPeriod price
  { price := price, fastMA := fastMA, slowMA := slowMA,
    zones := zonesList price fastMA slowMA }

/-- Number of zone booleans set on a bar. -/
def zoneCount (z : Zones) : ℕ :=
  z.green.toNat + z.blue.toNat + z.lightBlue.toNat + z.red.toNat +
    z.orange.toNat + z.yellow.toNat

/-! ### Indicator lemmas -/

theorem ewmAux_length (w : ℚ) :
    ∀ (xs : List ℚ) (num den : ℚ), (ewmAux w num den xs).length = xs.length := by
  intro xs
  induction xs with
  | nil => intro num den; rfl
  | cons x rest ih => intro num den; simp [ewmAux, ih]

theorem ewmMean_length (span : ℕ) (xs : List ℚ) :
    (ewmMean span xs).length = xs.length :=
  ewmAux_length _ xs 0 0

theorem zonesList_getD (d : Zones) :
    ∀ (ps fs ss : List ℚ) (i : ℕ), i < ps.length → i < fs.length →
      i < ss.length →
      (zonesList ps fs ss).getD i d =
        zonesOf (ps.getD i 0) (fs.getD i 0) (ss.getD i 0) := by
  intro ps
  induction ps with
  | nil => intro fs ss i hp; simp at hp
  | cons p ps ih =>
    intro fs ss i hp hf hs
    cases fs with
    | nil => simp at hf
    | cons f fs =>
      cases ss with
      | nil => simp at hs
      | cons s ss =>
        cases i with
        | zero => rfl
        | succ n =>
          simp only [zonesList, List.getD_cons_succ]
          exact ih fs ss n (by simpa using hp) (by simpa using hf)
            (by simpa using hs)

/-- When the fast and slow MAs differ and the price differs from both,
exactly one zone boolean is set. -/
theorem zonesOf_strict_partition (p f s : ℚ) (hfs : f ≠ s) (hpf : p ≠ f)
    (hps : p ≠ s) : zoneCount (zonesOf p f s) = 1 := by
  rcases lt_or_gt_of_ne hfs with h1 | h1 <;>
    rcases lt_or_gt_of_ne hpf with h2 | h2 <;>
      rcases lt_or_gt_of_ne hps with h3 | h3 <;>
        simp [zoneCount, zonesOf, h1, h2, h3, asymm h1, asymm h2, asymm h3]

/-- The six zone booleans are always pairwise exclusive: no bar ever has two
zones set, whatever the relations between price and the MAs. -/
theorem zonesOf_exclusive (p f s : ℚ) : zoneCount (zonesOf p f s) ≤ 1 := by
  by_cases h1 : s < f <;> by_cases h2 : f < s <;> by_cases h3 : f < p <;>
    by_cases h4 : p < f <;> by_cases h5 : s < p <;> by_cases h6 : p < s <;>
      first
        | (exfalso; linarith)
        | simp [zoneCount, zonesOf, h1, h2, h3, h4, h5, h6]

/-- C7 counterexample: on the one-bar series `[100]` the EMAs are defined
(pandas `ewm` emits a value from the very first bar) and equal, so NOT
exactly one zone boolean is set at bar 0 — all six are false. -/
theorem zone_partition_fails_at_bar_zero :
    zoneCount ((getIndicators 12 26 1 [100]).zones.getD 0 default) = 0 := by
  norm_num [getIndicators, ewmMean, ewmAux, zonesList, zonesOf, zoneCount]

/-- C7 amended: the six zone booleans are always pairwise exclusive, and at
every bar where the fast and slow EMAs differ and the smoothed price differs
from both, exactly one of them is set.  (When the MAs coincide — e.g. at bar
0 — or the price equals one of them, no zone is set.) -/
theorem zone_partition (fp sp sm : ℕ) (closes : List ℚ) (i : ℕ)
    (hi : i < closes.length)
    (hfs : (getIndicators fp sp sm closes).fastMA.getD i 0 ≠
      (getIndicators fp sp sm closes).slowMA.getD i 0)
    (hpf : (getIndicators fp sp sm closes).price.getD i 0 ≠
      (getIndicators fp sp sm closes).fastMA.getD i 0)
    (hps : (getIndicators fp sp sm closes).price.getD i 0 ≠
      (getIndicators fp sp sm closes).slowMA.getD i 0) :
    zoneCount ((getIndicators fp sp sm closes).zones.getD i default) = 1 ∧
    ∀ p f s : ℚ, zoneCount (zonesOf p f s) ≤ 1 := by
  refine ⟨?_, fun p f s => zonesOf_exclusive p f s⟩
  have hp : i < (ewmMean sm closes).length := by rw [ewmMean_length]; exact hi
  have hf : i < (ewmMean fp (ewmMean sm closes)).length := by
    rw [ewmMean_length, ewmMean_length]; exact hi
  have hs : i < (ewmMean sp (ewmMean sm closes)).length := by
    rw [ewmMean_length, ewmMean_length]; exact hi
  have hz := zonesList_getD default (ewmMean sm closes)
    (ewmMean fp (ewmMean sm closes)) (ewmMean sp (ewmMean sm closes)) i hp hf hs
  simp only [getIndicators] at hfs hpf hps ⊢
  rw [hz]
  exact zonesOf_strict_partition _ _ _ (fun h => hfs h) (fun h => hpf h)
    (fun h => hps h)

/-- C7 witness: on `[100, 90]` with periods 2/3/1, bar 1 has fast MA 185/2,
slow MA 280/3 and price 90, all distinct, and exactly one zone (red) is set. -/
theorem zone_partition_witness :
    zoneCount ((getIndicators 2 3 1 [100, 90]).zones.getD 1 default) = 1 :=
  (zone_partition 2 3 1 [100, 90] 1 (by norm_num)
    (by norm_num [getIndicators, ewmMean, ewmAux])
    (by norm_num [getIndicators, ewmMean, ewmAux])
    (by norm_num [getIndicators, ewmMean, ewmAux])).1

/-! ## Signal generator (`CDCActionZoneStrategy.calculate_signals`,
cdc_actionzone.py 75-180) -/

/-- The inner `bars_since` helper of `calculate_signals`
(cdc_actionzone.py 86-99): bars elapsed since the condition was last true,
`none` standing for the float infinity used when it has never been true. -/
def barsSinceAux : Nat → Option Nat → List Bool → List (Option Nat)
  | _, _, [] => []
  | i, last, c :: rest =>
    if c then some 0 :: barsSinceAux (i + 1) (some i) rest
    else (last.map fun j => i - j) :: barsSinceAux (i + 1) last rest

def barsSince (conds : List Bool) : List (Option Nat) :=
  barsSinceAux 0 none conds

/-- Comparison of two bars-since values under the float semantics of
`inf`: `inf < x` is false for every `x` (including `inf`), and `x < inf` is
true for finite `x`. -/
def ltInf : Option Nat → Option Nat → Bool
  | some a, some b => a < b
  | some _, none => true
  | none, _ => false

/-- `CDCActionZoneStrategy.calculate_signals` (cdc_actionzone.py 75-180):
`buycond[t] = green[t] ∧ ¬green[t-1]`, `sellcond[t] = red[t] ∧ ¬red[t-1]`
(shift(1) filled with False); `bullish = bars_since_buy < bars_since_sell`
and symmetrically `bearish`; a BUY fires at bar `i ≥ 1` iff
`bearish[i-1] ∧ buycond[i]`, else a SELL fires iff `bullish[i-1] ∧
sellcond[i]` (bar 0 is skipped by the explicit `continue`).  A BUY's quantity
is `config.cash * config.max_position_size / close[i]`; a SELL's is 0. -/
def calculateSignals (fastPeriod slowPeriod smoothing : Nat) (cash mps : ℚ)
    (closes : List ℚ) : List Signal :=
  let I := getIndicators fastPeriod slowPeriod smoothing closes
  let green := I.zones.map (·.green)
  let red := I.zones.map (·.red)
  let buycond := List.zipWith (fun g gp => g && !gp) green (false :: green)
  let sellcond := List.zipWith (fun r rp => r && !rp) red (false :: red)
  let barsSinceBuy := barsSince buycond
  let barsSinceSell := barsSince sellcond
  let bullish := List.zipWith ltInf barsSinceBuy barsSinceSell
  let bearish := List.zipWith ltInf barsSinceSell barsSinceBuy
  let buyFlag := List.zipWith (fun b c => b && c) (false :: bearish) buycond
  let sellFlag := List.zipWith (fun b c => b && c) (false :: bullish) sellcond
  (List.range closes.length).filterMap fun i =>
    if i = 0 then none
    else if buyFlag.getD i false then
      some { t := i, side := OrderSide.buy, price := closes.getD i 0,
             quantity := cash * mps / closes.getD i 0 }
    else if sellFlag.getD i false then
      some { t := i, side := OrderSide.sell, price := closes.getD i 0,
             quantity := 0 }
    else none

/-- C3 counterexample: for fast_period 2, slow_period 26, smoothing 1 the
three-bar series `[100, 90, 130]` has fewer bars than
`max(fast_period, slow_period) = 26`, yet signal generation emits a BUY at
bar 2 (the EMAs are defined from the very first bar, so there is no
undefined warm-up window). -/
theorem signals_fire_before_warmup :
    [(100 : ℚ), 90, 130].length < max 2 26 ∧
    calculateSignals 2 26 1 1000 (1/10) [100, 90, 130] ≠ [] := by
  constructor
  · norm_num
  · have h : calculateSignals 2 26 1 1000 (1/10) [100, 90, 130] =
        [{ t := 2, side := OrderSide.buy, price := 130, quantity := 10/13 }] := by
      norm_num [calculateSignals, getIndicators, ewmMean, ewmAux, zonesList,
        zonesOf, barsSince, barsSinceAux, ltInf, List.range_succ,
        List.filterMap_cons, List.getD]
    rw [h]
    simp

/-- C3 amended: signal generation is total — it returns an empty signal list
(rather than failing) on every series of fewer than 3 bars, and never emits a
signal at bar 0.  There is no undefined-EMA warm-up window (pandas `ewm`
yields a value from the first bar), and series shorter than
`max(fast_period, slow_period)` can still emit signals. -/
theorem signals_empty_on_short_series (fp sp sm : Nat) (cash mps : ℚ)
    (closes : List ℚ) :
    (closes.length ≤ 2 → calculateSignals fp sp sm cash mps closes = []) ∧
    (∀ s ∈ calculateSignals fp sp sm cash mps closes, 1 ≤ s.t) := by
  constructor
  · intro hlen
    cases closes with
    | nil => rfl
    | cons a t =>
      cases t with
      | nil =>
        simp [calculateSignals, List.range_succ, List.filterMap_cons]
      | cons b t2 =>
        cases t2 with
        | nil =>
          simp [calculateSignals, getIndicators, ewmMean, ewmAux, zonesList,
            zonesOf, barsSince, barsSinceAux, ltInf, List.range_succ,
            List.filterMap_cons, List.getD]
        | cons c t3 =>
          exfalso
          simp only [List.length_cons] at hlen
          omega
  · intro s hs
    simp only [calculateSignals, List.mem_filterMap, List.mem_range] at hs
    obtain ⟨i, hi, hf⟩ := hs
    by_cases h0 : i = 0
    · rw [h0] at hf
      simp at hf
    · have h1 : 1 ≤ i := Nat.one_le_iff_ne_zero.mpr h0
      rw [if_neg h0] at hf
      split at hf
      · cases hf
        exact h1
      · split at hf
        · cases hf
          exact h1
        · exact absurd hf (by simp)

/-- C3 witness: a two-bar series produces no signals, whatever the periods. -/
theorem signals_empty_on_short_series_witness :
    calculateSignals 12 26 1 1000 (1/10) [100, 90] = [] :=
  (signals_empty_on_short_series 12 26 1 1000 (1/10) [100, 90]).1 (by norm_num)

/-! ## Performance analytics (`BacktestReport`, backtest_report.py) -/

/-- One row of the trade table built by `BacktestReport._analyze_trades`
(backtest_report.py 26-76).  `statusOpen` is the `"status": "OPEN"` tag that
is set only on the trailing unmatched entry. -/
structure TradeRecord where
  entryTime : Nat
  entryPrice : ℚ
  quantity : ℚ
  exitTime : Option Nat
  exitPrice : Option ℚ
  profitLoss : Option ℚ
  profitLossPct : Option ℚ
  durationDays : Option Nat
  statusOpen : Bool
deriving DecidableEq, Repr

/-- The `current_position` dict of `_analyze_trades` before exit fields are
filled in. -/
structure OpenPosition where
  entryTime : Nat
  entryPrice : ℚ
  quantity : ℚ
deriving DecidableEq, Repr

/-- Opening a position from a BUY signal (backtest_report.py 32-45). -/
def openSignal (s : Signal) : OpenPosition :=
  { entryTime := s.t, entryPrice := s.price, quantity := s.quantity }

/-- Closing a position on a SELL signal (backtest_report.py 46-69).  The
percentage uses Rat division, which is 0 at a zero entry value where Python
would raise; no claim below depends on `profitLossPct`. -/
def closeOut (c : OpenPosition) (s : Signal) : TradeRecord :=
  let entryValue := c.entryPrice * c.quantity
  let exitValue := s.price * c.quantity
  let profitLoss := exitValue - entryValue
  { entryTime := c.entryTime, entryPrice := c.entryPrice,
    quantity := c.quantity, exitTime := some s.t, exitPrice := some s.price,
    profitLoss := some profitLoss,
    profitLossPct := some (profitLoss / entryValue * 100),
    durationDays := some (s.t - c.entryTime), statusOpen := false }

/-- The trailing open-position row appended after the loop
(backtest_report.py 71-74). -/
def openRecord (c : OpenPosition) : TradeRecord :=
  { entryTime := c.entryTime, entryPrice := c.entryPrice,
    quantity := c.quantity, exitTime := none, exitPrice := none,
    profitLoss := none, profitLossPct := none, durationDays := none,
    statusOpen := true }

/-- The signal loop of `_analyze_trades` (backtest_report.py 29-76): a BUY
always (over)writes `current_position`; a SELL closes it when one is open
and is ignored otherwise; a trailing open position is appended last. -/
def analyzeTradesAux : Option OpenPosition → List Signal → List TradeRecord
  | none, [] => []
  | some c, [] => [openRecord c]
  | cur, s :: rest =>
    if s.side = OrderSide.buy then
      analyzeTradesAux (some (openSignal s)) rest
    else
      match cur with
      | some c => closeOut c s :: analyzeTradesAux none rest
      | none => analyzeTradesAux none rest

/-- `BacktestReport._analyze_trades`. -/
def analyzeTrades (signals : List Signal) : List TradeRecord :=
  analyzeTradesAux none signals

/-- The closed-trade selection of `generate_summary`
(backtest_report.py 123): rows whose `exit_time` is set. -/
def closedTrades (trades : List TradeRecord) : List TradeRecord :=
  trades.filter fun t => t.exitTime.isSome

/-- The open-trade selection of `generate_summary` (backtest_report.py 124):
rows tagged `"OPEN"`. -/
def openTrades (trades : List TradeRecord) : List TradeRecord :=
  trades.filter fun t => t.statusOpen

/-- Reference FLAT/LONG pairing machine, following the spec's trade
lifecycle: a BUY leaves the machine LONG (it opens a trade when FLAT and is
ignored when already LONG), a SELL while LONG finalizes (counts) a closed
trade and returns to FLAT, and a SELL while FLAT is ignored.  Returns the
final is-LONG flag and the number of closed trades. -/
def specPairing : Bool → List Signal → Bool × Nat
  | opened, [] => (opened, 0)
  | opened, s :: rest =>
    if s.side = OrderSide.buy then specPairing true rest
    else if opened then
      let r := specPairing false rest
      (r.1, r.2 + 1)
    else specPairing false rest

/-- The `current_position` left after `_analyze_trades` scans the list. -/
def finalPosition : Option OpenPosition → List Signal → Option OpenPosition
  | cur, [] => cur
  | cur, s :: rest =>
    if s.side = OrderSide.buy then finalPosition (some (openSignal s)) rest
    else finalPosition none rest

/-! ### Trade-pairing lemmas -/

theorem analyzeTradesAux_closed_length :
    ∀ (sigs : List Signal) (cur : Option OpenPosition),
      (closedTrades (analyzeTradesAux cur sigs)).length =
        (specPairing cur.isSome sigs).2 := by
  intro sigs
  induction sigs with
  | nil =>
    intro cur
    cases cur <;>
      simp [analyzeTradesAux, specPairing, closedTrades, openRecord]
  | cons s rest ih =>
    intro cur
    cases hside : s.side with
    | buy =>
      cases cur <;> simp [analyzeTradesAux, specPairing, hside, ih]
    | sell =>
      cases cur with
      | none => simp [analyzeTradesAux, specPairing, hside, ih none]
      | some c =>
        have h2 := ih none
        simp only [closedTrades] at h2
        simp [analyzeTradesAux, specPairing, hside, closedTrades, closeOut, h2]

theorem analyzeTradesAux_open_filter :
    ∀ (sigs : List Signal) (cur : Option OpenPosition),
      openTrades (analyzeTradesAux cur sigs) =
        (finalPosition cur sigs).elim [] (fun c => [openRecord c]) := by
  intro sigs
  induction sigs with
  | nil =>
    intro cur
    cases cur <;>
      simp [analyzeTradesAux, finalPosition, openTrades, openRecord]
  | cons s rest ih =>
    intro cur
    cases hside : s.side with
    | buy => cases cur <;> simp [analyzeTradesAux, finalPosition, hside, ih]
    | sell =>
      cases cur with
      | none => simp [analyzeTradesAux, finalPosition, hside, ih none]
      | some c =>
        have h2 := ih none
        simp only [openTrades] at h2
        simp [analyzeTradesAux, finalPosition, hside, openTrades, closeOut, h2]

theorem finalPosition_isSome :
    ∀ (sigs : List Signal) (cur : Option OpenPosition),
      (finalPosition cur sigs).isSome = (specPairing cur.isSome sigs).1 := by
  intro sigs
  induction sigs with
  | nil => intro cur; cases cur <;> simp [finalPosition, specPairing]
  | cons s rest ih =>
    intro cur
    cases hside : s.side with
    | buy => cases cur <;> simp [finalPosition, specPairing, hside, ih]
    | sell => cases cur <;> simp [finalPosition, specPairing, hside, ih none]

theorem finalPosition_lastBuy :
    ∀ (sigs : List Signal) (cur : Option OpenPosition) (c : OpenPosition),
      finalPosition cur sigs = some c →
      ((sigs.filter fun x => decide (x.side = OrderSide.buy)).getLast?).map
          openSignal = some c ∨
        ((sigs.filter fun x => decide (x.side = OrderSide.buy)) = [] ∧
          cur = some c) := by
  intro sigs
  induction sigs with
  | nil =>
    intro cur c h
    right
    exact ⟨rfl, h⟩
  | cons s rest ih =>
    intro cur c h
    cases hside : s.side with
    | buy =>
      simp only [finalPosition, hside, if_true, reduceIte] at h
      have hfil : (s :: rest).filter (fun x => decide (x.side = OrderSide.buy)) =
          s :: rest.filter (fun x => decide (x.side = OrderSide.buy)) := by
        simp [hside]
      rcases ih (some (openSignal s)) c h with hl | ⟨hnil, hc⟩
      · left
        rw [hfil]
        cases hrf : rest.filter (fun x => decide (x.side = OrderSide.buy)) with
        | nil => rw [hrf] at hl; simp at hl
        | cons b bs => rw [hrf] at hl; rw [List.getLast?_cons_cons]; exact hl
      · left
        rw [hfil, hnil]
        simpa using hc
    | sell =>
      simp only [finalPosition, hside, reduceIte] at h
      rcases ih none c h with hl | ⟨hnil, hc⟩
      · left
        have hfil : (s :: rest).filter (fun x => decide (x.side = OrderSide.buy)) =
            rest.filter (fun x => decide (x.side = OrderSide.buy)) := by
          simp [hside]
        rw [hfil]
        exact hl
      · exact absurd hc (by simp)

theorem specPairing_le_buys :
    ∀ (sigs : List Signal) (opened : Bool),
      (specPairing opened sigs).2 ≤
        (sigs.filter fun x => decide (x.side = OrderSide.buy)).length +
          (if opened then 1 else 0) := by
  intro sigs
  induction sigs with
  | nil => intro opened; simp [specPairing]
  | cons s rest ih =>
    intro opened
    cases hside : s.side with
    | buy =>
      have h := ih true
      simp only [specPairing, hside, reduceIte, List.filter_cons, decide_eq_true_eq]
      simp only [if_true, reduceIte] at h ⊢
      simp [List.length_cons]
      cases opened <;> simp <;> omega
    | sell =>
      cases opened with
      | true =>
        have h := ih false
        simp only [specPairing, hside, List.filter_cons] at h ⊢
        simp at h ⊢
        omega
      | false =>
        have h := ih false
        simp only [specPairing, hside, List.filter_cons] at h ⊢
        simp at h ⊢
        omega

theorem specPairing_le_sells :
    ∀ (sigs : List Signal) (opened : Bool),
      (specPairing opened sigs).2 ≤
        (sigs.filter fun x => decide (x.side = OrderSide.sell)).length := by
  intro sigs
  induction sigs with
  | nil => intro opened; simp [specPairing]
  | cons s rest ih =>
    intro opened
    cases hside : s.side with
    | buy =>
      have h := ih true
      simp only [specPairing, hside, List.filter_cons] at h ⊢
      simp at h ⊢
      omega
    | sell =>
      cases opened with
      | true =>
        have h := ih false
        simp only [specPairing, hside, List.filter_cons] at h ⊢
        simp at h ⊢
        omega
      | false =>
        have h := ih false
        simp only [specPairing, hside, List.filter_cons] at h ⊢
        simp at h ⊢
        omega

/-- C9: trade reconstruction pairs signals exactly as the FLAT/LONG state
machine does: the number of CLOSED trades equals the machine's matched-pair
count (which is at most `min(#BUY, #SELL)`); at most one OPEN trade exists,
it exists precisely when the machine ends LONG, and it is the trailing
unmatched BUY (the last BUY signal of the list). -/
theorem trade_pairing (sigs : List Signal) :
    (closedTrades (analyzeTrades sigs)).length = (specPairing false sigs).2 ∧
    (specPairing false sigs).2 ≤
      min ((sigs.filter fun x => decide (x.side = OrderSide.buy)).length)
        ((sigs.filter fun x => decide (x.side = OrderSide.sell)).length) ∧
    (openTrades (analyzeTrades sigs)).length ≤ 1 ∧
    ((openTrades (analyzeTrades sigs)).length = 1 ↔
      (specPairing false sigs).1 = true) ∧
    ∀ tr ∈ openTrades (analyzeTrades sigs),
      ((sigs.filter fun x => decide (x.side = OrderSide.buy)).getLast?).map
        (fun s => openRecord (openSignal s)) = some tr := by
  have hopen := analyzeTradesAux_open_filter sigs none
  have hsome := finalPosition_isSome sigs none
  refine ⟨analyzeTradesAux_closed_length sigs none, ?_, ?_, ?_, ?_⟩
  · exact le_min (by simpa using specPairing_le_buys sigs false)
      (specPairing_le_sells sigs false)
  · rw [analyzeTrades, hopen]
    cases finalPosition none sigs <;> simp
  · rw [analyzeTrades, hopen]
    cases h : finalPosition none sigs with
    | none =>
      rw [h] at hsome
      simp only [Option.isSome_none, Option.isSome_some] at hsome
      simp [← hsome]
    | some c =>
      rw [h] at hsome
      simp only [Option.isSome_none, Option.isSome_some] at hsome
      simp [← hsome]
  · intro tr htr
    rw [analyzeTrades, hopen] at htr
    cases h : finalPosition none sigs with
    | none => rw [h] at htr; simp at htr
    | some c =>
      rw [h] at htr
      simp only [Option.elim, List.mem_singleton] at htr
      subst htr
      rcases finalPosition_lastBuy sigs none c h with hl | ⟨-, hc⟩
      · cases hlb : (sigs.filter fun x => decide (x.side = OrderSide.buy)).getLast? with
        | none => rw [hlb] at hl; simp at hl
        | some b =>
          rw [hlb] at hl
          have hl2 : openSignal b = c := by simpa using hl
          subst hl2
          rfl
      · exact absurd hc (by simp)

/-- C9 witness: for [BUY, BUY, SELL, BUY], one closed trade, one open trade,
and the open trade is the trailing BUY at t = 3. -/
theorem trade_pairing_witness :
    (closedTrades (analyzeTrades
        [⟨0, OrderSide.buy, 10, 1⟩, ⟨1, OrderSide.buy, 11, 1⟩,
          ⟨2, OrderSide.sell, 12, 0⟩, ⟨3, OrderSide.buy, 13, 1⟩])).length = 1 ∧
    ∀ tr ∈ openTrades (analyzeTrades
        [⟨0, OrderSide.buy, 10, 1⟩, ⟨1, OrderSide.buy, 11, 1⟩,
          ⟨2, OrderSide.sell, 12, 0⟩, ⟨3, OrderSide.buy, 13, 1⟩]),
      tr = openRecord (openSignal ⟨3, OrderSide.buy, 13, 1⟩) := by
  have h := trade_pairing
    [⟨0, OrderSide.buy, 10, 1⟩, ⟨1, OrderSide.buy, 11, 1⟩,
      ⟨2, OrderSide.sell, 12, 0⟩, ⟨3, OrderSide.buy, 13, 1⟩]
  refine ⟨?_, ?_⟩
  · rw [h.1]
    rfl
  · intro tr htr
    have h5 := h.2.2.2.2 tr htr
    simp at h5
    exact h5.symm

/-! ## Win rate of `BaseStrategy.run_backtest` (strategy.py 70-73) -/

/-- The `winning_trades` value of `run_backtest` (strategy.py 71): it counts
the signals whose side is BUY. -/
def winningTradesCount (signals : List Signal) : Nat :=
  (signals.filter fun s => decide (s.side = OrderSide.buy)).length

/-- `win_rate = winning_trades / total_trades if total_trades > 0 else 0`
(strategy.py 73), with `total_trades = len(signals)` (strategy.py 72). -/
def runBacktestWinRate (signals : List Signal) : ℚ :=
  if 0 < signals.length then
    (winningTradesCount signals : ℚ) / (signals.length : ℚ)
  else 0

/-- C1: the win_rate reported in the Strategy Result does NOT equal the
number of profitably closed trades over the total number of trades: for the
single unmatched BUY signal, `run_backtest` reports win_rate 1 (it counts BUY
signals), although trade reconstruction yields zero closed trades and zero
trades with positive profit, so the claimed value is 0. -/
theorem win_rate_counts_buys_not_wins :
    runBacktestWinRate [⟨1, OrderSide.buy, 100, 1⟩] = 1 ∧
    (closedTrades (analyzeTrades [⟨1, OrderSide.buy, 100, 1⟩])).length = 0 ∧
    ((closedTrades (analyzeTrades [⟨1, OrderSide.buy, 100, 1⟩])).filter
        fun t => decide (0 < t.profitLoss.getD 0)).length = 0 ∧
    (1 : ℚ) ≠ 0 := by
  refine ⟨?_, rfl, rfl, one_ne_zero⟩
  norm_num [runBacktestWinRate, winningTradesCount]

/-! ## Summary generation (`BacktestReport.generate_summary`,
backtest_report.py 120-210) -/

/-- `equity_curve.pct_change().dropna()` (backtest_report.py 157): one
period-over-period fractional return per adjacent pair, so one fewer entry
than the curve. -/
def pctChange (xs : List ℚ) : List ℚ :=
  List.zipWith (fun prev cur => cur / prev - 1) xs (xs.drop 1)

/-- Mean of a series; `none` encodes the NaN pandas returns on an empty
series. -/
def meanQ (xs : List ℚ) : Option ℚ :=
  if xs.length = 0 then none else some (xs.sum / (xs.length : ℚ))

/-- Square of `Series.std()` (sample standard deviation, `ddof = 1`), kept
as the variance so the value stays rational; `none` encodes the NaN pandas
returns for fewer than two observations.  The source's `volatility` is the
square root of `sampleVar · * 252`, a strictly monotone image of the value
modelled here. -/
def sampleVar (xs : List ℚ) : Option ℚ :=
  if xs.length < 2 then none
  else
    let m := xs.sum / (xs.length : ℚ)
    some ((xs.map fun x => (x - m) ^ 2).sum / ((xs.length : ℚ) - 1))

/-- `Series.quantile(0.05)` with pandas' default linear interpolation
between the order statistics at position `0.05 * (n - 1)`; `none` encodes
NaN on the empty series. -/
def quantile05 (xs : List ℚ) : Option ℚ :=
  if xs.length = 0 then none
  else
    let sorted := xs.insertionSort (· ≤ ·)
    let pos : ℚ := ((xs.length : ℚ) - 1) / 20
    let i : Nat := pos.floor.toNat
    let frac : ℚ := pos - (i : ℚ)
    let lo := sorted.getD i 0
    let hi := sorted.getD (i + 1) lo
    some (lo + (hi - lo) * frac)

/-- `returns[returns <= var_95].mean()` (backtest_report.py 160). -/
def cvar95Of (returns : List ℚ) : Option ℚ :=
  match quantile05 returns with
  | none => none
  | some v => meanQ (returns.filter fun r => decide (r ≤ v))

/-- Largest element, 0 on the empty list (mirroring
`max(...) if closed_trades else 0`, backtest_report.py 141-143). -/
def maxQ : List ℚ → ℚ
  | [] => 0
  | x :: rest => rest.foldl max x

/-- Smallest element, 0 on the empty list (backtest_report.py 144-146). -/
def minQ : List ℚ → ℚ
  | [] => 0
  | x :: rest => rest.foldl min x

/-- The `StrategyResult` fields consumed by `BacktestReport`
(core/models.py 105-115). -/
structure StrategyResultData where
  totalReturn : ℚ
  sharpeRatio : ℚ
  maxDrawdown : ℚ
  winRate : ℚ
  totalTrades : Nat
  signals : List Signal
  equityCurve : List ℚ
deriving DecidableEq, Repr

/-- The `performance` block of the summary (backtest_report.py 163-172);
`profitFactor = none` encodes the `float("inf")` branch. -/
structure Performance where
  totalReturn : ℚ
  annualizedReturn : ℚ
  sharpeRatio : ℚ
  maxDrawdown : ℚ
  winRate : ℚ
  profitFactor : Option ℚ
deriving DecidableEq, Repr

/-- The `risk_metrics` block (backtest_report.py 173-183); `volatilitySq` is
the square of the source's `volatility` (see `sampleVar`), and `none` fields
encode NaN. -/
structure RiskMetrics where
  volatilitySq : Option ℚ
  var95 : Option ℚ
  cvar95 : Option ℚ
  calmarRatio : ℚ
deriving DecidableEq, Repr

/-- The `trade_statistics` block (backtest_report.py 184-204). -/
structure TradeStatistics where
  totalTrades : Nat
  winningCount : Nat
  losingCount : Nat
  openCount : Nat
  avgWin : ℚ
  avgLoss : ℚ
  maxWin : ℚ
  maxLoss : ℚ
  avgDurationDays : ℚ
deriving DecidableEq, Repr

/-- The summary dict of `generate_summary` (backtest_report.py 162-208);
the monthly-returns and drawdown-period blocks are time-bucketing views not
touched by any claim and are not modelled. -/
structure Summary where
  performance : Performance
  riskMetrics : RiskMetrics
  tradeStatistics : TradeStatistics
  trades : List TradeRecord
deriving DecidableEq, Repr

/-- `BacktestReport.generate_summary` (backtest_report.py 120-210).  The
unguarded Python expression `252 / len(returns)` (line 165) raises
`ZeroDivisionError` when the returns series is empty — i.e. whenever the
equity curve has at most one point — which is embedded as the `Except.error`
branch; every other division in the function is either guarded
(`avg_loss != 0`, `max_drawdown != 0`, emptiness checks) or NaN-producing
rather than raising. -/
def generateSummary (r : StrategyResultData) (initialCash : ℚ) :
    Except String Summary :=
  let trades := analyzeTrades r.signals
  let closed := closedTrades trades
  let opens := openTrades trades
  let winning := closed.filter fun t => decide (0 < t.profitLoss.getD 0)
  let losing := closed.filter fun t => decide (t.profitLoss.getD 0 ≤ 0)
  let avgWin :=
    if winning.length ≠ 0 then
      (winning.map fun t => t.profitLoss.getD 0).sum / (winning.length : ℚ)
    else 0
  let avgLoss :=
    if losing.length ≠ 0 then
      (losing.map fun t => t.profitLoss.getD 0).sum / (losing.length : ℚ)
    else 0
  let maxWin := maxQ (closed.map fun t => t.profitLoss.getD 0)
  let maxLoss := minQ (closed.map fun t => t.profitLoss.getD 0)
  let avgDuration :=
    if closed.length ≠ 0 then
      (closed.map fun t => ((t.durationDays.getD 0 : Nat) : ℚ)).sum /
        (closed.length : ℚ)
    else 0
  let returns := pctChange r.equityCurve
  if returns.length = 0 then Except.error "ZeroDivisionError"
  else
    Except.ok
      { performance :=
          { totalReturn := r.totalReturn
            annualizedReturn := r.totalReturn * (252 / (returns.length : ℚ))
            sharpeRatio := r.sharpeRatio
            maxDrawdown := r.maxDrawdown
            winRate := r.winRate
            profitFactor :=
              if avgLoss ≠ 0 then some |avgWin / avgLoss| else none }
        riskMetrics :=
          { volatilitySq := (sampleVar returns).map (· * 252)
            var95 := quantile05 returns
            cvar95 := cvar95Of returns
            calmarRatio :=
              if r.maxDrawdown ≠ 0 then
                (r.totalReturn * (252 / (returns.length : ℚ))) / |r.maxDrawdown|
              else 0 }
        tradeStatistics :=
          { totalTrades := closed.length
            winningCount := winning.length
            losingCount := losing.length
            openCount := opens.length
            avgWin := avgWin
            avgLoss := avgLoss
            maxWin := maxWin
            maxLoss := maxLoss
            avgDurationDays := avgDuration }
        trades := trades }

/-- C2: `generate_summary` does NOT return a well-formed summary for every
valid StrategyResult: on a single-bar series (equity curve with one point,
empty period-returns series, zero trades) it crashes with a
`ZeroDivisionError` from `252 / len(returns)` instead of reporting zeros. -/
theorem summary_crashes_on_single_bar :
    generateSummary
        { totalReturn := 0, sharpeRatio := 0, maxDrawdown := 0, winRate := 0,
          totalTrades := 0, signals := [], equityCurve := [1000] } 1000 =
      Except.error "ZeroDivisionError" := rfl

end TradingBot
